import Mathlib

/-!
Verification development for the Telegram broadcast application.

The embedding follows the source files:
* `validators.py` — chat-id validation (`validate_chat_id`, `validate_chat_ids`);
* `utils.py` — the sender adapter `send_message_to_chat` and its
  exception-to-status classification;
* `app.py` (lines 1006–1082) — the inline send operation `send_one`,
  the `broadcast` dispatcher with its semaphore, the `worker` result
  accumulation and the aggregate counters.

Python strings are modelled as lists of characters; machine concurrency is
modelled by a small-step transition system over the per-recipient phases of
the dispatcher, with the network behaviour supplied by an adversarial
environment.
-/

namespace TgBroadcast

/-- Python strings, modelled as lists of characters. -/
abbrev PyStr := List Char

/-- ASCII whitespace as recognised by Python `str.strip()` /
`str.isspace()` (space, tab, newline, carriage return, vertical tab,
form feed). -/
def isPySpace (c : Char) : Bool :=
  c = ' ' || c = '\t' || c = '\n' || c = '\r' ||
  c = Char.ofNat 11 || c = Char.ofNat 12

/-- Python `str.strip()`: remove leading and trailing whitespace. -/
def pyStrip (s : PyStr) : PyStr :=
  ((s.dropWhile isPySpace).reverse.dropWhile isPySpace).reverse

/-- An ASCII decimal digit. -/
def isAsciiDigit (c : Char) : Bool := '0' ≤ c && c ≤ '9'

/-- Python `str.isdigit()` (restricted to ASCII digits): true exactly on
non-empty strings all of whose characters are digits. -/
def pyIsdigit (s : PyStr) : Bool := !s.isEmpty && s.all isAsciiDigit

/-- Python `str.startswith('-')`. -/
def startsWithDash (t : PyStr) : Bool :=
  match t with
  | c :: _ => c = '-'
  | [] => false

/-- `validators.validate_chat_id` (validators.py, lines 27–46): empty
strings are invalid; otherwise the string is stripped, and if it starts
with a minus sign the remainder must be digits with total length above
one, else the whole stripped string must be digits. -/
def validate_chat_id (chat_id : PyStr) : Bool :=
  if chat_id.isEmpty then false
  else
    let t := pyStrip chat_id
    if startsWithDash t then pyIsdigit (t.drop 1) && decide (t.length > 1)
    else pyIsdigit t

/-- `validators.validate_chat_ids` (validators.py, lines 49–68): partition
the input into (valid, invalid); valid entries are stored stripped, in
input order; invalid entries are stored verbatim, in input order. -/
def validate_chat_ids (chat_ids : List PyStr) : List PyStr × List PyStr :=
  match chat_ids with
  | [] => ([], [])
  | c :: rest =>
    let p := validate_chat_ids rest
    if validate_chat_id c then (pyStrip c :: p.1, p.2) else (p.1, c :: p.2)

/-- The validity condition exactly as the claim words it: the stripped
form is a non-empty string of digits, or a minus sign followed by at
least one digit. -/
def specValidId (s : PyStr) : Prop :=
  (pyStrip s ≠ [] ∧ ∀ c ∈ pyStrip s, isAsciiDigit c = true) ∨
  (∃ u, pyStrip s = '-' :: u ∧ u ≠ [] ∧ ∀ c ∈ u, isAsciiDigit c = true)

lemma validate_chat_ids_eq (l : List PyStr) :
    validate_chat_ids l =
      ((l.filter validate_chat_id).map pyStrip,
        l.filter (fun s => !validate_chat_id s)) := by
  induction l with
  | nil => rfl
  | cons c rest ih =>
    by_cases h : validate_chat_id c = true
    · simp [validate_chat_ids, ih, List.filter_cons, h]
    · simp [validate_chat_ids, ih, List.filter_cons, h]

lemma isEmpty_false_iff {α : Type} (l : List α) : l.isEmpty = false ↔ l ≠ [] := by
  cases l <;> simp

lemma validate_chat_id_eq (s : PyStr) :
    validate_chat_id s =
      (if s.isEmpty then false
       else if startsWithDash (pyStrip s) then
         pyIsdigit ((pyStrip s).drop 1) && decide ((pyStrip s).length > 1)
       else pyIsdigit (pyStrip s)) := rfl

lemma validate_chat_id_iff (s : PyStr) :
    validate_chat_id s = true ↔ specValidId s := by
  rcases s with _ | ⟨a0, s0⟩
  · simp [validate_chat_id, specValidId, pyStrip, List.dropWhile]
  · rw [validate_chat_id_eq]
    unfold specValidId
    simp only [List.isEmpty_cons, Bool.false_eq_true, if_false]
    cases ht : pyStrip (a0 :: s0) with
    | nil => simp [startsWithDash, pyIsdigit]
    | cons a u =>
      by_cases ha : a = '-'
      · subst ha
        have hsw : startsWithDash ('-' :: u) = true := by
          simp [startsWithDash]
        rw [hsw, if_pos rfl]
        simp only [pyIsdigit, Bool.and_eq_true, Bool.not_eq_true',
          isEmpty_false_iff, List.all_eq_true, List.drop_one,
          List.tail_cons, List.length_cons, decide_eq_true_eq]
        constructor
        · rintro ⟨⟨hne, hall⟩, _⟩
          right
          exact ⟨u, rfl, hne, hall⟩
        · rintro (⟨hne, hall⟩ | ⟨v, hv, hvne, hvall⟩)
          · have hd : isAsciiDigit '-' = true := hall '-' (by simp)
            simp [isAsciiDigit] at hd
          · have huv : v = u := by
              injection hv with _ h2
              exact h2.symm
            subst huv
            refine ⟨⟨hvne, hvall⟩, ?_⟩
            cases v with
            | nil => exact absurd rfl hvne
            | cons b w =>
              simp only [List.length_cons]
              omega
      · have hsw : startsWithDash (a :: u) = false := by
          simp [startsWithDash, ha]
        rw [hsw]
        simp only [Bool.false_eq_true, if_false, pyIsdigit,
          Bool.and_eq_true, Bool.not_eq_true', isEmpty_false_iff,
          List.all_eq_true]
        constructor
        · rintro ⟨hne, hall⟩
          left
          exact ⟨hne, hall⟩
        · rintro (⟨hne, hall⟩ | ⟨v, hv, hvne, hvall⟩)
          · exact ⟨hne, hall⟩
          · injection hv with h1 _
            exact absurd h1 ha

lemma validate_lengths (l : List PyStr) :
    (validate_chat_ids l).1.length + (validate_chat_ids l).2.length
      = l.length := by
  rw [validate_chat_ids_eq]
  simp only [List.length_map]
  induction l with
  | nil => rfl
  | cons c rest ih =>
    by_cases h : validate_chat_id c = true
    · rw [List.filter_cons, List.filter_cons, if_pos h,
        if_neg (by simp [h])]
      simp only [List.length_cons]
      omega
    · have hf : validate_chat_id c = false := by
        cases hb : validate_chat_id c
        · rfl
        · exact absurd hb h
      rw [List.filter_cons, List.filter_cons, if_neg h,
        if_pos (by simp [hf])]
      simp only [List.length_cons]
      omega

/-- C10: `validate_chat_ids` partitions its input: valid elements are
returned stripped in input order, invalid elements verbatim in input
order, the two output lengths sum to the input length, and an element is
valid exactly when its stripped form is a non-empty digit string or a
minus sign followed by at least one digit. -/
theorem C10_validate_partition (l : List PyStr) :
    (validate_chat_ids l).1 = (l.filter validate_chat_id).map pyStrip ∧
    (validate_chat_ids l).2 = l.filter (fun s => !validate_chat_id s) ∧
    (validate_chat_ids l).1.length + (validate_chat_ids l).2.length
      = l.length ∧
    ∀ s : PyStr, validate_chat_id s = true ↔ specValidId s := by
  refine ⟨?_, ?_, validate_lengths l, validate_chat_id_iff⟩
  · rw [validate_chat_ids_eq]
  · rw [validate_chat_ids_eq]

/-! ## Error model and status classification

`python-telegram-bot` exceptions, as caught by the repository:
`Forbidden`, `BadRequest` and `NetworkError` are subclasses of
`TelegramError`; anything else raised by a send is a plain `Exception`.
The inductive below mirrors the most specific class of a raised
exception, which is what Python's ordered `except` clauses dispatch on. -/

/-- A `telegram.error.TelegramError`, by its most specific subclass. -/
inductive TgError
  | forbidden (msg : PyStr)
  | badRequest (msg : PyStr)
  | networkError (msg : PyStr)
  | otherTelegram (msg : PyStr)
deriving DecidableEq

/-- Any Python exception a send can raise: a `TelegramError` or some
other `Exception`. -/
inductive PyErr
  | telegram (e : TgError)
  | other (msg : PyStr)
deriving DecidableEq

/-- Python `str(e)` for the modelled exceptions. -/
def PyErr.msg : PyErr → PyStr
  | .telegram (.forbidden m) => m
  | .telegram (.badRequest m) => m
  | .telegram (.networkError m) => m
  | .telegram (.otherTelegram m) => m
  | .other m => m

/-- One network attempt by the delivery client: it either returns, or
raises an exception. -/
abbrev AdapterRes := Except PyErr Unit

/-- The status string `"success"`. -/
def statusSuccess : PyStr := "success".data

/-- The status string `"dry_run"`. -/
def statusDryRun : PyStr := "dry_run".data

/-- The `except` clauses of `utils.send_message_to_chat` (utils.py,
lines 126–149): `Forbidden`, `BadRequest`, `NetworkError`,
`TelegramError`, `Exception`, in that order, each mapped to a status
string carrying a kind prefix and the exception text. -/
def classify_utils : PyErr → PyStr
  | .telegram (.forbidden m) =>
      "forbidden: Bot was blocked by user or chat not found - ".data ++ m
  | .telegram (.badRequest m) =>
      "bad_request: Invalid request - ".data ++ m
  | .telegram (.networkError m) =>
      "network_error: Connection issue - ".data ++ m
  | .telegram (.otherTelegram m) =>
      "telegram_error: ".data ++ m
  | .other m => "error: ".data ++ m

/-- The `except` clauses of `send_one` (app.py, lines 1031–1034): only
`TelegramError` and `Exception` are distinguished. -/
def classify_app : PyErr → PyStr
  | .telegram e =>
      "telegram_error: ".data ++ (PyErr.telegram e).msg
  | .other m => "error: ".data ++ m

/-- The kind prefix of a status string, as extracted by the result
export (`status.split(':')[0]`, app.py line 1109 and
`utils.generate_csv_results`). -/
def kindOf (s : PyStr) : PyStr := s.takeWhile (fun c => c ≠ ':')

/-- The status returned by `send_one` (app.py, lines 1006–1034) given
the dry-run flag and the adapter behaviour. On an exception the status
is the classified error string — the exception never escapes. -/
def sendOneStatus (dryRun : Bool) (r : AdapterRes) : PyStr :=
  if dryRun then statusDryRun
  else
    match r with
    | .ok _ => statusSuccess
    | .error e => classify_app e

/-- Observable events inside one `send_one` call, in program order.
`adapterCall photo` is the single network call (`send_photo` when an
image is attached, `send_message` otherwise). -/
inductive Ev
  | acquire
  | sleepFor (d : ℚ)
  | adapterCall (photo : Bool)
  | release
deriving DecidableEq

/-- The event trace of one `send_one` call (app.py, lines 1006–1034):
acquire the semaphore; if dry-run, sleep 0.1 and return `dry_run`; else
perform the one network call, and only when it returns without raising,
sleep `send_delay / max_concurrent` before returning `success`; the
`async with sem` block releases the slot on every path. -/
def sendOneTrace (dryRun : Bool) (hasImage : Bool) (sendDelay : ℚ)
    (maxConc : ℕ) (r : AdapterRes) : List Ev :=
  if dryRun then [.acquire, .sleepFor (1 / 10), .release]
  else
    match r with
    | .ok _ =>
        [.acquire, .adapterCall hasImage,
          .sleepFor (sendDelay / (maxConc : ℚ)), .release]
    | .error _ => [.acquire, .adapterCall hasImage, .release]

/-! ## The broadcast dispatcher as a transition system

`broadcast` (app.py, lines 1036–1066) builds the delivery client, a
semaphore of size `max_concurrent`, launches one `worker` per entry of
`chat_ids` via `asyncio.gather`, and returns the shared `results` list
once all workers finished. Each worker runs `send_one` (acquire a slot,
perform the send, release the slot) and appends its `(chat_id, status)`
pair. The event loop may interleave workers arbitrarily; the network
outcome of worker `i` is supplied by an environment `env i`. -/

/-- Configuration of one `broadcast` run: recipient list, semaphore size
`max_concurrent`, dry-run flag, and each worker's network outcome. -/
structure Cfg where
  chatIds : List PyStr
  conc : ℕ
  dryRun : Bool
  env : ℕ → AdapterRes

/-- Progress of one per-recipient worker. -/
inductive Phase
  | ready
  | running
  | done
deriving DecidableEq

/-- Dispatcher state: per-worker phases, free semaphore slots, and the
shared `results` list, appended in completion order. -/
structure RunState where
  phases : List Phase
  slots : ℕ
  results : List (PyStr × PyStr)

/-- The `(chat_id, status)` pair appended by worker `i`. -/
def entryOf (cfg : Cfg) (i : ℕ) : PyStr × PyStr :=
  (cfg.chatIds.getD i [], sendOneStatus cfg.dryRun (cfg.env i))

/-- One scheduler step: a pending worker acquires a free slot, or a
worker holding a slot completes its send (outcome fixed by the
environment), appends its result and releases the slot. The
`async with sem` block of `send_one` releases the slot on every exit
path, so release and result-append are a single completion step. -/
inductive Step (cfg : Cfg) : RunState → RunState → Prop
  | acquireSlot (s : RunState) (i : ℕ)
      (hp : s.phases.get? i = some .ready) (hs : s.slots ≠ 0) :
      Step cfg s ⟨s.phases.set i .running, s.slots - 1, s.results⟩
  | finishSend (s : RunState) (i : ℕ)
      (hp : s.phases.get? i = some .running) :
      Step cfg s
        ⟨s.phases.set i .done, s.slots + 1, s.results ++ [entryOf cfg i]⟩

/-- Initial dispatcher state: all workers pending, semaphore full, no
results. -/
def initState (cfg : Cfg) : RunState :=
  ⟨List.replicate cfg.chatIds.length .ready, cfg.conc, []⟩

/-- States the dispatcher can pass through during a run. -/
def Reachable (cfg : Cfg) (s : RunState) : Prop :=
  Relation.ReflTransGen (Step cfg) (initState cfg) s

/-- The run is complete: every worker has recorded its outcome. -/
def Terminal (s : RunState) : Prop := ∀ p ∈ s.phases, p = Phase.done

/-- Number of workers currently holding a semaphore slot. -/
def countRunning (l : List Phase) : ℕ :=
  l.countP (fun q => decide (q = Phase.running))

/-- Indices of the workers that have completed. -/
def doneIdx (l : List Phase) : List ℕ :=
  (List.range l.length).filter (fun i => decide (l.get? i = some Phase.done))

/-! ### List helper lemmas -/

lemma get?_set_self {α : Type} (l : List α) (i : ℕ) (b : α) (a : α)
    (h : l.get? i = some a) : (l.set i b).get? i = some b := by
  induction l generalizing i with
  | nil => simp at h
  | cons x t ih =>
    cases i with
    | zero => rfl
    | succ j => exact ih j h

lemma get?_set_other {α : Type} (l : List α) (i j : ℕ) (b : α)
    (h : i ≠ j) : (l.set i b).get? j = l.get? j := by
  induction l generalizing i j with
  | nil => simp
  | cons x t ih =>
    cases i with
    | zero =>
      cases j with
      | zero => exact absurd rfl h
      | succ k => rfl
    | succ i2 =>
      cases j with
      | zero => rfl
      | succ k => exact ih i2 k (by omega)

lemma countP_set {α : Type} (p : α → Bool) (l : List α) (i : ℕ) (a b : α)
    (h : l.get? i = some a) :
    (l.set i b).countP p + (if p a then 1 else 0)
      = l.countP p + (if p b then 1 else 0) := by
  induction l generalizing i with
  | nil => simp at h
  | cons x t ih =>
    cases i with
    | zero =>
      have hx : x = a := by
        simpa using h
      subst hx
      simp only [List.set]
      rw [List.countP_cons, List.countP_cons]
      omega
    | succ j =>
      simp only [List.set]
      rw [List.countP_cons, List.countP_cons]
      have := ih j h
      omega

lemma filter_update_perm (p q : ℕ → Bool) (l : List ℕ) (i : ℕ)
    (hnd : l.Nodup) (hi : i ∈ l)
    (hagree : ∀ j, j ≠ i → q j = p j) (hqi : q i = true)
    (hpi : p i = false) :
    (l.filter q).Perm (i :: l.filter p) := by
  induction l with
  | nil => simp at hi
  | cons x t ih =>
    have hx : x ∉ t := (List.nodup_cons.mp hnd).1
    have hndt : t.Nodup := (List.nodup_cons.mp hnd).2
    by_cases hxi : x = i
    · subst hxi
      rw [List.filter_cons, List.filter_cons, if_pos hqi,
        if_neg (by simp [hpi])]
      have hsame : t.filter q = t.filter p := by
        apply List.filter_congr
        intro j hj
        exact hagree j (fun hji => hx (hji ▸ hj))
      rw [hsame]
    · have hit : i ∈ t := by
        rcases List.mem_cons.mp hi with h1 | h1
        · exact absurd h1.symm hxi
        · exact h1
      have hqp : q x = p x := hagree x hxi
      cases hpx : p x with
      | true =>
        rw [List.filter_cons, List.filter_cons, if_pos (by rw [hqp, hpx]),
          if_pos hpx]
        exact ((ih hndt hit).cons x).trans (List.Perm.swap i x _)
      | false =>
        rw [List.filter_cons, List.filter_cons,
          if_neg (by rw [hqp, hpx]; simp),
          if_neg (by rw [hpx]; simp)]
        exact ih hndt hit

lemma map_getD_range {α : Type} (xs : List α) (d : α) :
    (List.range xs.length).map (fun i => xs.getD i d) = xs := by
  induction xs with
  | nil => rfl
  | cons x t ih =>
    rw [List.length_cons, List.range_succ_eq_map, List.map_cons,
      List.map_map]
    show x :: ((List.range t.length).map
      ((fun i => (x :: t).getD i d) ∘ Nat.succ)) = x :: t
    have hfun :
        ((fun i => (x :: t).getD i d) ∘ Nat.succ)
          = fun i => t.getD i d := by
      funext i
      rfl
    rw [hfun, ih]

/-! ### The run invariant -/

/-- Invariant of reachable dispatcher states: phases track every
recipient, free slots plus held slots equal the budget, and `results`
is precisely the completed workers' entries, in some completion order. -/
def Inv (cfg : Cfg) (s : RunState) : Prop :=
  s.phases.length = cfg.chatIds.length ∧
  s.slots + countRunning s.phases = cfg.conc ∧
  ∃ l : List ℕ, l.Perm (doneIdx s.phases) ∧ s.results = l.map (entryOf cfg)

lemma inv_init (cfg : Cfg) : Inv cfg (initState cfg) := by
  refine ⟨?_, ?_, [], ?_, rfl⟩
  · show (List.replicate cfg.chatIds.length Phase.ready).length
        = cfg.chatIds.length
    exact List.length_replicate _ _
  · have hc : countRunning (List.replicate cfg.chatIds.length Phase.ready)
        = 0 := by
      apply List.countP_eq_zero.mpr
      intro a ha
      have := List.eq_of_mem_replicate ha
      subst this
      simp
    show cfg.conc
        + countRunning (List.replicate cfg.chatIds.length Phase.ready)
        = cfg.conc
    rw [hc]
    omega
  · have hd : doneIdx (List.replicate cfg.chatIds.length Phase.ready)
        = [] := by
      apply List.filter_eq_nil_iff.mpr
      intro i _
      intro hdec
      have hsome := of_decide_eq_true hdec
      have hmem := List.get?_mem hsome
      have := List.eq_of_mem_replicate hmem
      cases this
    show List.Perm []
        (doneIdx (List.replicate cfg.chatIds.length Phase.ready))
    rw [hd]

lemma inv_step (cfg : Cfg) (s s' : RunState) (hstep : Step cfg s s')
    (hinv : Inv cfg s) : Inv cfg s' := by
  obtain ⟨hlen, hslots, l, hperm, hres⟩ := hinv
  cases hstep with
  | acquireSlot i hp hs =>
    refine ⟨?_, ?_, l, ?_, hres⟩
    · show (s.phases.set i Phase.running).length = cfg.chatIds.length
      rw [List.length_set]
      exact hlen
    · have hcnt := countP_set (fun q => decide (q = Phase.running))
        s.phases i Phase.ready Phase.running hp
      simp at hcnt
      show s.slots - 1 + countRunning (s.phases.set i Phase.running)
          = cfg.conc
      unfold countRunning at hslots ⊢
      omega
    · have hd : doneIdx (s.phases.set i Phase.running)
          = doneIdx s.phases := by
        unfold doneIdx
        rw [List.length_set]
        apply List.filter_congr
        intro j _
        by_cases hji : i = j
        · subst hji
          rw [get?_set_self s.phases i Phase.running Phase.ready hp]
          rw [hp]
          simp
        · rw [get?_set_other s.phases i j Phase.running hji]
      show List.Perm l (doneIdx (s.phases.set i Phase.running))
      rw [hd]
      exact hperm
  | finishSend i hp =>
    have hilt : i < s.phases.length := by
      by_contra hge
      rw [List.get?_eq_none.mpr (by omega)] at hp
      cases hp
    refine ⟨?_, ?_, l ++ [i], ?_, ?_⟩
    · show (s.phases.set i Phase.done).length = cfg.chatIds.length
      rw [List.length_set]
      exact hlen
    · have hcnt := countP_set (fun q => decide (q = Phase.running))
        s.phases i Phase.running Phase.done hp
      simp at hcnt
      show s.slots + 1 + countRunning (s.phases.set i Phase.done)
          = cfg.conc
      unfold countRunning at hslots ⊢
      omega
    · have hd : (doneIdx (s.phases.set i Phase.done)).Perm
          (i :: doneIdx s.phases) := by
        unfold doneIdx
        rw [List.length_set]
        apply filter_update_perm
        · exact List.nodup_range _
        · exact List.mem_range.mpr hilt
        · intro j hji
          rw [get?_set_other s.phases i j Phase.done
            (fun h => hji h.symm)]
        · rw [get?_set_self s.phases i Phase.done Phase.running hp]
          simp
        · rw [hp]
          simp
      show List.Perm (l ++ [i]) (doneIdx (s.phases.set i Phase.done))
      exact ((List.perm_append_singleton i l).trans
        (hperm.cons i)).trans hd.symm
    · show s.results ++ [entryOf cfg i] = (l ++ [i]).map (entryOf cfg)
      rw [List.map_append, ← hres]
      rfl

lemma inv_reachable (cfg : Cfg) (s : RunState) (h : Reachable cfg s) :
    Inv cfg s := by
  induction h with
  | refl => exact inv_init cfg
  | tail _ hstep ih => exact inv_step cfg _ _ hstep ih

lemma terminal_doneIdx (s : RunState) (ht : Terminal s) :
    doneIdx s.phases = List.range s.phases.length := by
  apply List.filter_eq_self.mpr
  intro i hi
  apply decide_eq_true
  have hlt := List.mem_range.mp hi
  cases hg : s.phases.get? i with
  | none =>
    rw [List.get?_eq_none] at hg
    omega
  | some a =>
    have := ht a (List.get?_mem hg)
    rw [this]

/-! ### A concrete schedule: processing workers one at a time -/

/-- The fully completed state in which worker `i` recorded the `i`-th
entry, used to exhibit reachable terminal states. -/
def allDoneState (cfg : Cfg) : RunState :=
  ⟨List.replicate cfg.chatIds.length Phase.done, cfg.conc,
    (List.range cfg.chatIds.length).map (entryOf cfg)⟩

/-- Intermediate state of the sequential schedule: the first `k` workers
have completed, the rest are pending. -/
def midState (cfg : Cfg) (k : ℕ) : RunState :=
  ⟨List.replicate k Phase.done
      ++ List.replicate (cfg.chatIds.length - k) Phase.ready,
    cfg.conc, (List.range k).map (entryOf cfg)⟩

lemma get?_append_len {α : Type} (l₁ l₂ : List α) :
    (l₁ ++ l₂).get? l₁.length = l₂.get? 0 := by
  induction l₁ with
  | nil => rfl
  | cons x t ih => exact ih

lemma set_append_len {α : Type} (l₁ l₂ : List α) (b : α) :
    (l₁ ++ l₂).set l₁.length b = l₁ ++ l₂.set 0 b := by
  induction l₁ with
  | nil => rfl
  | cons x t ih =>
    show x :: (t ++ l₂).set t.length b = x :: (t ++ l₂.set 0 b)
    rw [ih]

lemma reach_mid (cfg : Cfg) (hconc : cfg.conc ≠ 0) :
    ∀ k, k ≤ cfg.chatIds.length → Reachable cfg (midState cfg k) := by
  intro k
  induction k with
  | zero =>
    intro _
    have h0 : midState cfg 0 = initState cfg := rfl
    rw [h0]
    exact Relation.ReflTransGen.refl
  | succ k ih =>
    intro hk1
    have hreach := ih (by omega)
    obtain ⟨m, hm⟩ : ∃ m, cfg.chatIds.length - k = m + 1 :=
      ⟨cfg.chatIds.length - k - 1, by omega⟩
    have hphase : (midState cfg k).phases
        = List.replicate k Phase.done
          ++ List.replicate (m + 1) Phase.ready := by
      show List.replicate k Phase.done
          ++ List.replicate (cfg.chatIds.length - k) Phase.ready = _
      rw [hm]
    have hget1 : (midState cfg k).phases.get? k = some Phase.ready := by
      rw [hphase]
      have hg := get?_append_len (List.replicate k Phase.done)
        (List.replicate (m + 1) Phase.ready)
      rw [List.length_replicate] at hg
      rw [hg]
      rfl
    have hset1 : (midState cfg k).phases.set k Phase.running
        = List.replicate k Phase.done
          ++ Phase.running :: List.replicate m Phase.ready := by
      rw [hphase]
      have hs := set_append_len (List.replicate k Phase.done)
        (List.replicate (m + 1) Phase.ready) Phase.running
      rw [List.length_replicate] at hs
      rw [hs]
      rfl
    have hr1 : Reachable cfg
        ⟨List.replicate k Phase.done
            ++ Phase.running :: List.replicate m Phase.ready,
          cfg.conc - 1, (List.range k).map (entryOf cfg)⟩ := by
      apply Relation.ReflTransGen.tail hreach
      have hstep1 := @Step.acquireSlot cfg (midState cfg k) k hget1 hconc
      rw [hset1] at hstep1
      exact hstep1
    have hget2 : (List.replicate k Phase.done
        ++ Phase.running :: List.replicate m Phase.ready).get? k
        = some Phase.running := by
      have hg := get?_append_len (List.replicate k Phase.done)
        (Phase.running :: List.replicate m Phase.ready)
      rw [List.length_replicate] at hg
      rw [hg]
      rfl
    apply Relation.ReflTransGen.tail hr1
    have hstep2 := @Step.finishSend cfg
      ⟨List.replicate k Phase.done
          ++ Phase.running :: List.replicate m Phase.ready,
        cfg.conc - 1, (List.range k).map (entryOf cfg)⟩ k hget2
    have hset2 : (List.replicate k Phase.done
          ++ Phase.running :: List.replicate m Phase.ready).set k
            Phase.done
        = List.replicate (k + 1) Phase.done
          ++ List.replicate m Phase.ready := by
      have hs := set_append_len (List.replicate k Phase.done)
        (Phase.running :: List.replicate m Phase.ready) Phase.done
      rw [List.length_replicate] at hs
      rw [hs, List.replicate_succ', List.append_assoc]
      rfl
    have hstate2 :
        (⟨(List.replicate k Phase.done
              ++ Phase.running :: List.replicate m Phase.ready).set k
              Phase.done,
          cfg.conc - 1 + 1,
          (List.range k).map (entryOf cfg) ++ [entryOf cfg k]⟩ : RunState)
        = midState cfg (k + 1) := by
      have hm2 : m = cfg.chatIds.length - (k + 1) := by omega
      have hc2 : cfg.conc - 1 + 1 = cfg.conc := by omega
      have hres2 : (List.range k).map (entryOf cfg) ++ [entryOf cfg k]
          = (List.range (k + 1)).map (entryOf cfg) := by
        rw [List.range_succ, List.map_append]
        rfl
      show _ = (⟨List.replicate (k + 1) Phase.done
          ++ List.replicate (cfg.chatIds.length - (k + 1)) Phase.ready,
        cfg.conc, (List.range (k + 1)).map (entryOf cfg)⟩ : RunState)
      rw [hset2, hc2, hres2, ← hm2]
    rw [← hstate2]
    exact hstep2

lemma reach_allDone (cfg : Cfg) (hconc : cfg.conc ≠ 0) :
    Reachable cfg (allDoneState cfg) ∧ Terminal (allDoneState cfg) := by
  constructor
  · have h := reach_mid cfg hconc cfg.chatIds.length (le_refl _)
    have heq : midState cfg cfg.chatIds.length = allDoneState cfg := by
      unfold midState allDoneState
      rw [Nat.sub_self]
      show (⟨List.replicate cfg.chatIds.length Phase.done ++ [], _, _⟩
        : RunState) = _
      rw [List.append_nil]
    rw [← heq]
    exact h
  · intro p hp
    exact List.eq_of_mem_replicate hp

/-! ## Aggregate counters -/

/-- The `sent` counter (app.py, lines 1051 and 1080): results whose
status is `"success"`. -/
def sentCount (rs : List (PyStr × PyStr)) : ℕ :=
  rs.countP (fun r => decide (r.2 = statusSuccess))

/-- The `failed` counter (app.py, lines 1052 and 1082): results whose
status is neither `"success"` nor `"dry_run"`. -/
def failedCount (rs : List (PyStr × PyStr)) : ℕ :=
  rs.countP (fun r =>
    decide (r.2 ≠ statusSuccess) && decide (r.2 ≠ statusDryRun))

/-- The `dry` counter (app.py, lines 1053 and 1081): results whose
status is `"dry_run"`. -/
def dryCount (rs : List (PyStr × PyStr)) : ℕ :=
  rs.countP (fun r => decide (r.2 = statusDryRun))

/-! ## Delivery-client construction

`broadcast` begins with `bot = Bot(token=token)` (app.py, line 1037),
before the semaphore is created and before any worker is launched; a
construction exception (e.g. an invalid token) propagates out of
`broadcast`, since no handler surrounds it. -/

/-- Outcome of constructing the delivery client. -/
abbrev CtorRes := Except PyStr Unit

/-- State of one whole `broadcast` call, including delivery-client
construction. -/
inductive DispatchState
  | start
  | ctorFailed (e : PyStr)
  | dispatching (s : RunState)

/-- Steps of a whole `broadcast` call: construction either succeeds,
after which the dispatcher starts from its initial state, or raises, in
which case the call aborts with that single error; once dispatching,
the run takes dispatcher steps. -/
inductive DStep (ctor : CtorRes) (cfg : Cfg) :
    DispatchState → DispatchState → Prop
  | ctorOk (h : ctor = Except.ok ()) :
      DStep ctor cfg .start (.dispatching (initState cfg))
  | ctorRaise (e : PyStr) (h : ctor = Except.error e) :
      DStep ctor cfg .start (.ctorFailed e)
  | dispatch (s t : RunState) (h : Step cfg s t) :
      DStep ctor cfg (.dispatching s) (.dispatching t)

/-- States a whole `broadcast` call can pass through. -/
def DReachable (ctor : CtorRes) (cfg : Cfg) (d : DispatchState) : Prop :=
  Relation.ReflTransGen (DStep ctor cfg) .start d

/-- Whether an event is the network call of the delivery client. -/
def isAdapterCall : Ev → Bool
  | .adapterCall _ => true
  | _ => false

/-! ## Example configurations used by the witnesses -/

/-- Example run: two identical recipients, both sends succeed. -/
def exCfg : Cfg := ⟨["1".data, "1".data], 1, false, fun _ => Except.ok ()⟩

/-- Example dry run over three recipients. -/
def exCfgDry : Cfg :=
  ⟨["1".data, "2".data, "3".data], 2, true, fun _ => Except.ok ()⟩

/-- Example run in which the second send raises `Forbidden`. -/
def exCfgFail : Cfg :=
  ⟨["1".data, "2".data], 1, false,
    fun i =>
      if i = 1 then
        Except.error (PyErr.telegram (TgError.forbidden "blocked".data))
      else Except.ok ()⟩

/-- Example run with an empty recipient list. -/
def exCfgEmpty : Cfg := ⟨[], 3, false, fun _ => Except.ok ()⟩

/-- An example result list. -/
def exResults : List (PyStr × PyStr) :=
  [("1".data, statusSuccess), ("2".data, "error: boom".data),
    ("3".data, statusDryRun)]

/-- A permutation of `exResults` (another completion order). -/
def exResults2 : List (PyStr × PyStr) :=
  [("3".data, statusDryRun), ("1".data, statusSuccess),
    ("2".data, "error: boom".data)]

/-! ## The claims -/

/-- C1: every completed `broadcast` run over recipient list `R` (with
duplicates allowed) yields exactly `len(R)` result entries whose
recipient-ID multiset equals the multiset of `R`: one entry per list
element, no omissions, no extras, duplicates yielding duplicate
entries. -/
theorem C1_exactly_once (cfg : Cfg) (s : RunState)
    (hr : Reachable cfg s) (ht : Terminal s) :
    s.results.length = cfg.chatIds.length ∧
    (s.results.map Prod.fst).Perm cfg.chatIds := by
  obtain ⟨hlen, hslots, l, hperm, hres⟩ := inv_reachable cfg s hr
  rw [terminal_doneIdx s ht] at hperm
  have hmap : s.results.map Prod.fst
      = l.map (fun i => cfg.chatIds.getD i []) := by
    rw [hres, List.map_map]
    rfl
  constructor
  · rw [hres, List.length_map, hperm.length_eq, List.length_range, hlen]
  · rw [hmap]
    refine (hperm.map (fun i => cfg.chatIds.getD i [])).trans ?_
    rw [hlen, map_getD_range]

/-- Witness for C1, on a concrete completed run with a duplicated
recipient. -/
theorem C1_exactly_once_witness :
    (allDoneState exCfg).results.length = exCfg.chatIds.length ∧
    ((allDoneState exCfg).results.map Prod.fst).Perm exCfg.chatIds :=
  C1_exactly_once exCfg (allDoneState exCfg)
    (reach_allDone exCfg (by decide)).1
    (reach_allDone exCfg (by decide)).2

/-- C2: with the dry-run flag set, every result entry of any reachable
dispatcher state carries the `dry_run` status, and the `send_one` trace
contains no network call (neither `send_photo` nor `send_message`). -/
theorem C2_dry_run_purity (cfg : Cfg) (s : RunState) (p : PyStr × PyStr)
    (hasImage : Bool) (sendDelay : ℚ) (maxConc : ℕ) (r : AdapterRes)
    (hd : cfg.dryRun = true) (hr : Reachable cfg s)
    (hp : p ∈ s.results) :
    p.2 = statusDryRun ∧
    (sendOneTrace true hasImage sendDelay maxConc r).countP isAdapterCall
      = 0 := by
  constructor
  · obtain ⟨_, _, l, _, hres⟩ := inv_reachable cfg s hr
    rw [hres] at hp
    obtain ⟨i, _, hpi⟩ := List.mem_map.mp hp
    rw [← hpi]
    show (entryOf cfg i).2 = statusDryRun
    simp [entryOf, sendOneStatus, hd]
  · unfold sendOneTrace
    rfl

/-- Witness for C2, on a concrete reachable dry-run state. -/
theorem C2_dry_run_purity_witness :
    (("1".data, statusDryRun) : PyStr × PyStr).2 = statusDryRun ∧
    (sendOneTrace true false 1 10 (Except.ok ())).countP isAdapterCall
      = 0 :=
  C2_dry_run_purity exCfgDry (allDoneState exCfgDry)
    ("1".data, statusDryRun) false 1 10 (Except.ok ()) rfl
    (reach_allDone exCfgDry (by decide)).1 (by decide)

/-- C3 (counterexample): the claim states the pacing sleep
`delaySeconds / concurrency` is applied per completed send including
failures; but the trace of a failed send (here: delay 1, concurrency 2,
a plain exception) is acquire → network call → release, containing no
pacing sleep at all, because the exception jumps over the
`asyncio.sleep(send_delay / max_concurrent)` on line 1028 into the
`except` clause. -/
theorem C3_pacing_counterexample :
    sendOneTrace false false 1 2 (Except.error (PyErr.other []))
      = [Ev.acquire, Ev.adapterCall false, Ev.release] ∧
    Ev.sleepFor ((1 : ℚ) / 2) ∉
      sendOneTrace false false 1 2 (Except.error (PyErr.other [])) :=
  ⟨rfl, by decide⟩

/-- C3 (amended): each unit of work acquires a slot first and releases
it last; after a send that returns without raising, it sleeps
`send_delay / max_concurrent` before the release, but after a send that
raises, the slot is released with no pacing sleep. -/
theorem C3_pacing_amended (sendDelay : ℚ) (maxConc : ℕ)
    (hasImage : Bool) (u : Unit) (e : PyErr) :
    sendOneTrace false hasImage sendDelay maxConc (Except.ok u)
      = [Ev.acquire, Ev.adapterCall hasImage,
          Ev.sleepFor (sendDelay / (maxConc : ℚ)), Ev.release] ∧
    sendOneTrace false hasImage sendDelay maxConc (Except.error e)
      = [Ev.acquire, Ev.adapterCall hasImage, Ev.release] :=
  ⟨rfl, rfl⟩

/-- C4: in every reachable dispatcher state at most `max_concurrent`
workers hold a slot, and in every completed state the full budget has
been returned (no slot leaked on any exit path, including failures). -/
theorem C4_budget (cfg : Cfg) (s t : RunState) (hr : Reachable cfg s)
    (hrt : Reachable cfg t) (htt : Terminal t) :
    countRunning s.phases ≤ cfg.conc ∧ t.slots = cfg.conc := by
  obtain ⟨_, hslots, _⟩ := inv_reachable cfg s hr
  obtain ⟨_, hslots2, _⟩ := inv_reachable cfg t hrt
  constructor
  · omega
  · have hz : countRunning t.phases = 0 := by
      apply List.countP_eq_zero.mpr
      intro a ha
      have hda := htt a ha
      subst hda
      simp
    omega

/-- Witness for C4, on a concrete run. -/
theorem C4_budget_witness :
    countRunning (allDoneState exCfg).phases ≤ exCfg.conc ∧
    (allDoneState exCfg).slots = exCfg.conc :=
  C4_budget exCfg (allDoneState exCfg) (allDoneState exCfg)
    (reach_allDone exCfg (by decide)).1
    (reach_allDone exCfg (by decide)).1
    (reach_allDone exCfg (by decide)).2

/-- C5: a delivery-client exception for recipient `i` becomes a
returned `(chat_id, classified-error)` entry in the completed result
list — it never escapes `send_one` — and the run still completes with
one entry per recipient, so no other recipient's entry is lost. -/
theorem C5_failure_contained (cfg : Cfg) (s : RunState) (i : ℕ)
    (e : PyErr) (hr : Reachable cfg s) (ht : Terminal s)
    (hi : i < cfg.chatIds.length) (he : cfg.env i = Except.error e)
    (hdr : cfg.dryRun = false) :
    (cfg.chatIds.getD i [], classify_app e) ∈ s.results ∧
    s.results.length = cfg.chatIds.length := by
  obtain ⟨hlen, _, l, hperm, hres⟩ := inv_reachable cfg s hr
  rw [terminal_doneIdx s ht] at hperm
  constructor
  · have hisin : i ∈ l := by
      apply hperm.mem_iff.mpr
      rw [hlen]
      exact List.mem_range.mpr hi
    rw [hres]
    have hent : entryOf cfg i = (cfg.chatIds.getD i [], classify_app e)
        := by
      simp [entryOf, sendOneStatus, hdr, he]
    rw [← hent]
    exact List.mem_map_of_mem (entryOf cfg) hisin
  · rw [hres, List.length_map, hperm.length_eq, List.length_range, hlen]

/-- Witness for C5, on a concrete run whose second send raises
`Forbidden`. -/
theorem C5_failure_contained_witness :
    (exCfgFail.chatIds.getD 1 [],
      classify_app (PyErr.telegram (TgError.forbidden "blocked".data)))
      ∈ (allDoneState exCfgFail).results ∧
    (allDoneState exCfgFail).results.length
      = exCfgFail.chatIds.length :=
  C5_failure_contained exCfgFail (allDoneState exCfgFail) 1
    (PyErr.telegram (TgError.forbidden "blocked".data))
    (reach_allDone exCfgFail (by decide)).1
    (reach_allDone exCfgFail (by decide)).2
    (by decide) rfl rfl

/-- C6 (counterexample): the claim states the dispatcher's sender
adapter distinguishes at least four failure kinds; but the adapter the
dispatcher actually invokes (`send_one`, app.py lines 1031–1034) maps a
`Forbidden` (permanently unreachable), a `NetworkError` (transient) and
a `BadRequest` (malformed) failure all to the same kind
`telegram_error`. -/
theorem C6_kinds_counterexample :
    kindOf (classify_app
        (PyErr.telegram (TgError.forbidden "blocked".data)))
      = kindOf (classify_app
        (PyErr.telegram (TgError.networkError "timeout".data))) ∧
    kindOf (classify_app
        (PyErr.telegram (TgError.badRequest "bad".data)))
      = kindOf (classify_app
        (PyErr.telegram (TgError.forbidden "blocked".data))) :=
  ⟨rfl, rfl⟩

/-- C6 (amended): the module-level sender adapter
(`utils.send_message_to_chat`) classifies failures into the five kinds
`forbidden`, `bad_request`, `network_error`, `telegram_error` and
`error` — at least four pairwise distinct kinds covering the claimed
taxonomy — and each failure string carries the exception detail; the
dispatcher's inline adapter (`send_one` in app.py) distinguishes only
the two kinds `telegram_error` and `error`. -/
theorem C6_kinds_amended (m : PyStr) (e : PyErr) :
    kindOf (classify_utils (PyErr.telegram (TgError.forbidden m)))
      = "forbidden".data ∧
    kindOf (classify_utils (PyErr.telegram (TgError.badRequest m)))
      = "bad_request".data ∧
    kindOf (classify_utils (PyErr.telegram (TgError.networkError m)))
      = "network_error".data ∧
    kindOf (classify_utils (PyErr.telegram (TgError.otherTelegram m)))
      = "telegram_error".data ∧
    kindOf (classify_utils (PyErr.other m)) = "error".data ∧
    ("forbidden".data ≠ "bad_request".data ∧
      "forbidden".data ≠ "network_error".data ∧
      "forbidden".data ≠ "error".data ∧
      "bad_request".data ≠ "network_error".data ∧
      "bad_request".data ≠ "error".data ∧
      "network_error".data ≠ "error".data) ∧
    classify_utils (PyErr.telegram (TgError.forbidden m))
      = "forbidden: Bot was blocked by user or chat not found - ".data
        ++ m ∧
    classify_utils (PyErr.telegram (TgError.badRequest m))
      = "bad_request: Invalid request - ".data ++ m ∧
    classify_utils (PyErr.telegram (TgError.networkError m))
      = "network_error: Connection issue - ".data ++ m ∧
    classify_utils (PyErr.telegram (TgError.otherTelegram m))
      = "telegram_error: ".data ++ m ∧
    classify_utils (PyErr.other m) = "error: ".data ++ m ∧
    (kindOf (classify_app e) = "telegram_error".data ∨
      kindOf (classify_app e) = "error".data) := by
  refine ⟨rfl, rfl, rfl, rfl, rfl, by decide, rfl, rfl, rfl, rfl, rfl,
    ?_⟩
  cases e with
  | telegram te =>
    left
    rfl
  | other m2 =>
    right
    rfl

/-- C7: with an empty recipient list every reachable dispatcher state
is already terminal with an empty result list; in particular the number
of completion events — each of which is what triggers one progress
callback — is `0 ≤ 1`. -/
theorem C7_empty_run (cfg : Cfg) (s : RunState)
    (hempty : cfg.chatIds = []) (hr : Reachable cfg s) :
    s.results = [] ∧ Terminal s ∧ s.results.length ≤ 1 := by
  obtain ⟨hlen, _, l, hperm, hres⟩ := inv_reachable cfg s hr
  have hpn : s.phases = [] := by
    apply List.length_eq_zero.mp
    rw [hlen, hempty]
    rfl
  have hdn : doneIdx s.phases = [] := by
    rw [hpn]
    rfl
  have hln : l = [] := by
    rw [hdn] at hperm
    exact hperm.eq_nil
  have hrn : s.results = [] := by
    rw [hres, hln]
    rfl
  refine ⟨hrn, ?_, ?_⟩
  · intro p hp
    rw [hpn] at hp
    cases hp
  · rw [hrn]
    simp

/-- Witness for C7, at the (already terminal) initial state of an
empty-list run. -/
theorem C7_empty_run_witness :
    (initState exCfgEmpty).results = [] ∧
    Terminal (initState exCfgEmpty) ∧
    (initState exCfgEmpty).results.length ≤ 1 :=
  C7_empty_run exCfgEmpty (initState exCfgEmpty) rfl
    Relation.ReflTransGen.refl

lemma counters_sum (rs : List (PyStr × PyStr)) :
    sentCount rs + failedCount rs + dryCount rs = rs.length := by
  induction rs with
  | nil => rfl
  | cons r t ih =>
    unfold sentCount failedCount dryCount at ih ⊢
    rw [List.countP_cons, List.countP_cons, List.countP_cons,
      List.length_cons]
    have hsd : statusSuccess ≠ statusDryRun := by decide
    by_cases h1 : r.2 = statusSuccess
    · rw [if_pos (by simp [h1]), if_neg (by simp [h1]),
        if_neg (by simp [h1, hsd])]
      omega
    · by_cases h2 : r.2 = statusDryRun
      · rw [if_neg (by simp [h1]), if_neg (by simp [h2]),
          if_pos (by simp [h2])]
        omega
      · rw [if_neg (by simp [h1]), if_pos (by simp [h1, h2]),
          if_neg (by simp [h2])]
        omega

/-- C8: the aggregate counters `sent`, `failed` and `dryRun` computed
from the result list are invariant under permutation (i.e. they are a
function of the multiset of outcomes, independent of completion order),
and they always sum to the number of results. -/
theorem C8_counters_pure (rs rs2 : List (PyStr × PyStr))
    (h : rs.Perm rs2) :
    sentCount rs = sentCount rs2 ∧ failedCount rs = failedCount rs2 ∧
    dryCount rs = dryCount rs2 ∧
    sentCount rs + failedCount rs + dryCount rs = rs.length :=
  ⟨h.countP_eq _, h.countP_eq _, h.countP_eq _, counters_sum rs⟩

/-- Witness for C8, on two concrete completion orders of the same
outcomes. -/
theorem C8_counters_pure_witness :
    sentCount exResults = sentCount exResults2 ∧
    failedCount exResults = failedCount exResults2 ∧
    dryCount exResults = dryCount exResults2 ∧
    sentCount exResults + failedCount exResults + dryCount exResults
      = exResults.length :=
  C8_counters_pure exResults exResults2 (by decide)

/-- C9: if delivery-client construction (`Bot(token=token)`, the first
statement of `broadcast`) raises, every reachable state of the call is
the pre-construction state or that single construction failure — the
dispatcher is never entered, so no send is attempted and no
per-recipient entry exists; and when construction succeeds, the
construction-failure state is unreachable, so this is the only fatal
failure of the dispatcher itself. -/
theorem C9_construction_failure (ctor : CtorRes) (cfg : Cfg)
    (e e2 : PyStr) (d d2 : DispatchState) (hc : ctor = Except.error e)
    (hd : DReachable ctor cfg d)
    (hd2 : DReachable (Except.ok ()) cfg d2) :
    (d = DispatchState.start ∨ d = DispatchState.ctorFailed e) ∧
    d2 ≠ DispatchState.ctorFailed e2 := by
  constructor
  · induction hd with
    | refl => exact Or.inl rfl
    | tail hsteps hstep ih =>
      cases hstep with
      | ctorOk h =>
        rw [hc] at h
        exact Except.noConfusion h
      | ctorRaise e3 h =>
        rw [hc] at h
        injection h with h4
        right
        rw [h4]
      | dispatch s2 t2 h =>
        rcases ih with h1 | h1
        · exact absurd h1 (by simp)
        · exact absurd h1 (by simp)
  · rcases Relation.ReflTransGen.cases_tail hd2 with h | ⟨c, _, hc2⟩
    · rw [h]
      simp
    · cases hc2 with
      | ctorOk h2 => simp
      | ctorRaise e3 h2 => exact Except.noConfusion h2
      | dispatch s2 t2 h2 => simp

/-- Witness for C9, with a failing and a succeeding construction. -/
theorem C9_construction_failure_witness :
    (DispatchState.ctorFailed "invalid token".data
        = DispatchState.start ∨
      DispatchState.ctorFailed "invalid token".data
        = DispatchState.ctorFailed "invalid token".data) ∧
    DispatchState.start
      ≠ DispatchState.ctorFailed "invalid token".data :=
  C9_construction_failure (Except.error "invalid token".data) exCfg
    "invalid token".data "invalid token".data
    (DispatchState.ctorFailed "invalid token".data) DispatchState.start
    rfl
    (Relation.ReflTransGen.single
      (DStep.ctorRaise "invalid token".data rfl))
    Relation.ReflTransGen.refl

end TgBroadcast
